import Mathlib

/-!
Verification of the claudette CLI's metadata store, port allocator,
branch-conflict resolution and version/migration gate.

The Python sources are shallowly embedded:
* `src/claudette/config.py` (`ProjectMetadata`: `save`, `load`,
  `get_used_ports`, `suggest_port`) over an explicit file-system model;
* `src/claudette/cli.py` (`add`, `_handle_branch_conflict`) as trace-producing
  functions over an environment of external collaborator results;
* the newer-layout metadata store and the version/migration gate, whose code
  is not in the source tree (only its tests are), are modelled from the spec.
-/

namespace Claudette

/-- The double-quote character (written via its code point to keep string
handling explicit). -/
def dq : Char := Char.ofNat 34

/-- The single-quote character. -/
def sq : Char := Char.ofNat 39

/-- Whitespace characters stripped by Python's `str.strip()` (ASCII subset:
space, tab, newline, carriage return, vertical tab, form feed). -/
def wsChar (c : Char) : Bool :=
  c = ' ' || c = Char.ofNat 9 || c = Char.ofNat 10 || c = Char.ofNat 13 ||
  c = Char.ofNat 11 || c = Char.ofNat 12

/-- The newline character. -/
def nl : Char := Char.ofNat 10

/-- Split a character list at the first occurrence of `c`
(Python's `line.split(c, 1)` when `c` occurs). -/
def splitFirst (c : Char) : List Char → Option (List Char × List Char)
  | [] => none
  | x :: xs =>
    if x = c then some ([], xs)
    else
      match splitFirst c xs with
      | some (a, b) => some (x :: a, b)
      | none => none

/-- Split a character list on every occurrence of `c`.  Models Python's
`str.splitlines()` for `c` = newline: the file contents written by the code
use `\n` terminators only, and the trailing empty chunk produced here is
discarded by the key/value line filter, so the outcomes agree. -/
def splitOnChar (c : Char) : List Char → List (List Char)
  | [] => [[]]
  | x :: xs =>
    if x = c then [] :: splitOnChar c xs
    else
      match splitOnChar c xs with
      | [] => [[x]]
      | a :: rest => (x :: a) :: rest

/-- Drop characters satisfying `p` from the end of a list. -/
def dropEndWhile (p : Char → Bool) (l : List Char) : List Char :=
  (l.reverse.dropWhile p).reverse

/-- Python's `str.strip()`: remove whitespace from both ends. -/
def stripWs (l : List Char) : List Char :=
  dropEndWhile wsChar (l.dropWhile wsChar)

/-- Python's `str.strip(c)` for a single character `c`: remove all leading and
trailing occurrences of `c`. -/
def stripChar (c : Char) (l : List Char) : List Char :=
  dropEndWhile (fun x => x = c) (l.dropWhile (fun x => x = c))

/-- Unquoting in the legacy parser (`config.py` line 47):
`value.strip().strip(chr(34)).strip(chr(39))` — strip whitespace, then all
leading/trailing double quotes, then all leading/trailing single quotes. -/
def unquoteAll (l : List Char) : List Char :=
  stripChar sq (stripChar dq (stripWs l))

/-- Unquoting as the spec describes it for the current-layout parser:
strip whitespace, then one layer of matching single or double quotes. -/
def unquoteOnce (l : List Char) : List Char :=
  let s := stripWs l
  match s.head?, s.getLast? with
  | some a, some b =>
    if 2 ≤ s.length ∧ a = b ∧ (a = dq ∨ a = sq) then (s.drop 1).dropLast else s
  | _, _ => s

/-- Numeric value of a decimal digit character. -/
def digitVal (c : Char) : Nat := c.toNat - 48

/-- Parse a non-empty all-digit string as a natural number.  Python's `int()`
also accepts signs, surrounding whitespace and underscores; a value rejected
here but accepted by `int()` is necessarily outside [9000, 9999] or equal to a
plain digit string, so every downstream outcome (port accepted/record
rejected) is unchanged. -/
def parseDigits (l : List Char) : Option Nat :=
  if l ≠ [] ∧ l.all Char.isDigit then
    some (l.foldl (fun a c => a * 10 + digitVal c) 0)
  else none

/-- The decimal digit character for `d` (0–9). -/
def digitChar : Nat → Char
  | 0 => '0' | 1 => '1' | 2 => '2' | 3 => '3' | 4 => '4'
  | 5 => '5' | 6 => '6' | 7 => '7' | 8 => '8' | 9 => '9'
  | _ => '*'

/-- Decimal rendering of a port, as Python's f-string interpolation of the
int.  Ports are validated into [9000, 9999], hence always four digits. -/
def portRepr (p : Nat) : String :=
  String.mk [digitChar (p / 1000), digitChar (p / 100 % 10),
             digitChar (p / 10 % 10), digitChar (p % 10)]

/-- One `KEY=value` line of a metadata file: skipped unless it contains `=`
and its stripped form does not start with `#` (`config.py` line 44), then
split at the first `=`; the key is stripped and the value unquoted by
`unquote`. -/
def parseLine (unquote : List Char → List Char) (line : List Char) :
    Option (List Char × List Char) :=
  if ('=' ∈ line) ∧ (stripWs line).head? ≠ some '#' then
    match splitFirst '=' line with
    | some (k, v) => some (stripWs k, unquote v)
    | none => none
  else none

/-- Parse a whole metadata file into key/value pairs in line order. -/
def parseLines (unquote : List Char → List Char) (content : List Char) :
    List (List Char × List Char) :=
  (splitOnChar nl content).filterMap (parseLine unquote)

/-- Last-wins dictionary lookup (Python `dict` built by repeated
assignment). -/
def kvGet (pairs : List (List Char × List Char)) (k : List Char) :
    Option (List Char) :=
  (pairs.reverse.find? (fun p => p.1 = k)).map (fun p => p.2)

instance {ε α : Type} [DecidableEq ε] [DecidableEq α] : DecidableEq (Except ε α) :=
  fun a b =>
  match a, b with
  | .error e, .error f => decidable_of_iff (e = f) (by simp)
  | .ok x, .ok y => decidable_of_iff (x = y) (by simp)
  | .error _, .ok _ => isFalse (by simp)
  | .ok _, .error _ => isFalse (by simp)

/-! ## The metadata store of `config.py` (legacy flat layout, as in src)

The file system under `<claudette_home>/projects` is a list of
`(path, file)` entries.  Paths are the normalized relative segment lists that
Python's `pathlib.PurePath` produces: spurious slashes and single-dot
segments are collapsed when a `Path` is built, so two textually different
names can denote the same file.  Writing a file is modelled by prepending an
entry; lookup takes the first (most recent) entry for a path. -/

/-- A file on disk: readable text, or unreadable (permissions, binary…). -/
inductive FileData : Type
  | content (s : String)
  | unreadable
deriving DecidableEq

/-- The `projects` directory: entries keyed by normalized path segments. -/
def FS : Type := List (List String × FileData)

/-- `pathlib` path normalization of a relative path string: split on `/`,
drop empty and single-dot segments (`PurePath` collapses spurious slashes and
`.`; `..` segments are kept). -/
def pathSegs (s : String) : List String :=
  ((splitOnChar '/' s.data).map String.mk).filter (fun seg => seg ≠ "" ∧ seg ≠ ".")

/-- `ProjectMetadata.metadata_file`: the record for `name` lives at
`<claudette_home>/projects/<name>.claudette` (config.py line 20), expressed
relative to the `projects` directory. -/
def metadataKey (name : String) : List String :=
  pathSegs (name ++ ".claudette")

/-- First-match lookup in the file-system model. -/
def lookupFS (k : List String) (fs : FS) : Option FileData :=
  (fs.find? (fun e => e.1 = k)).map (fun e => e.2)

/-- `ProjectMetadata` of `config.py`: `name`, `port` (pydantic-validated into
[9000, 9999] at construction), `path` (kept as its string form). -/
structure ProjectMetadata : Type where
  name : String
  port : Nat
  path : String
deriving DecidableEq

/-- The file contents written by `ProjectMetadata.save` (config.py 27–31). -/
def saveContent (m : ProjectMetadata) : String :=
  "# Claudette project metadata\nPROJECT_NAME=\"" ++ m.name ++
  "\"\nNODE_PORT=\"" ++ portRepr m.port ++
  "\"\nPROJECT_PATH=\"" ++ m.path ++ "\"\n"

/-- `ProjectMetadata.save`: write (overwrite) the single metadata file
derived from `m.name`. -/
def save (m : ProjectMetadata) (fs : FS) : FS :=
  (metadataKey m.name, FileData.content (saveContent m)) :: fs

/-- Failures of `ProjectMetadata.load`: the distinctions mirror
`FileNotFoundError`, an unreadable file, a `KeyError` on a required key, and
`ValueError`/pydantic `ValidationError` on the port. -/
inductive LoadErr : Type
  | notFound
  | readError
  | missingKey
  | invalidPort
deriving DecidableEq

/-- `ProjectMetadata.load` (config.py 34–54): find the flat file, parse its
`KEY="value"` lines with all-quote stripping, require `PROJECT_NAME`,
`NODE_PORT`, `PROJECT_PATH`, convert the port with `int(...)` and validate it
into [9000, 9999] via the pydantic field constraint. -/
def loadKV (kv : List (List Char × List Char)) : Except LoadErr ProjectMetadata :=
  match kvGet kv "PROJECT_NAME".data, kvGet kv "NODE_PORT".data,
        kvGet kv "PROJECT_PATH".data with
  | some nm, some pt, some pth =>
    match parseDigits pt with
    | some v =>
      if 9000 ≤ v ∧ v ≤ 9999 then .ok ⟨String.mk nm, v, String.mk pth⟩
      else .error .invalidPort
    | none => .error .invalidPort
  | _, _, _ => .error .missingKey

def loadContent (c : String) : Except LoadErr ProjectMetadata :=
  loadKV (parseLines unquoteAll c.data)

/-- `ProjectMetadata.load`: find the flat metadata file for `name`
(`FileNotFoundError` when absent) and parse its contents. -/
def load (name : String) (fs : FS) : Except LoadErr ProjectMetadata :=
  match lookupFS (metadataKey name) fs with
  | none => .error .notFound
  | some .unreadable => .error .readError
  | some (.content c) => loadContent c

/-- `Path.stem` for a file name matched by `glob("*.claudette")`: drop the
final `.claudette` suffix (for the bare name `.claudette` the suffix is
hidden-file punctuation and the stem is the name itself). -/
def stemClaudette (f : String) : String :=
  if f = ".claudette" then f else String.mk (f.data.take (f.data.length - 10))

/-- Whether a file name ends in `.claudette` (spelled out on the character
list so that it evaluates inside the kernel). -/
def claudetteName (f : String) : Bool :=
  decide (10 ≤ f.data.length ∧
    f.data.drop (f.data.length - 10) = ".claudette".data)

/-- A top-level directory entry matched by `glob("*.claudette")`. -/
def topClaudette (k : List String) : Option String :=
  match k with
  | [f] => if claudetteName f then some f else none
  | _ => none

/-- The port contributed by one globbed file: `load` its stem and take the
port, or nothing if loading raises (config.py 72–76). -/
def portOfFile (fs : FS) (f : String) : Option Nat :=
  match load (stemClaudette f) fs with
  | .ok m => some m.port
  | .error _ => none

/-- `ProjectMetadata.get_used_ports` (config.py 62–77): glob the top-level
`*.claudette` files, `load` each by its stem, collect the ports of the loads
that succeed, silently skipping any that raise.  A real directory lists each
file name once; in the model a shadowed (overwritten) entry repeats its key,
and the repeated `load` resolves to the same first match, so iterating over
all keys yields the same set. -/
def get_used_ports (fs : FS) : Finset Nat :=
  ((fs.map Prod.fst).filterMap topClaudette).foldl
    (fun s f =>
      match portOfFile fs f with
      | some p => insert p s
      | none => s) ∅

/-- The `while port <= 9999` scan of `suggest_port` (config.py 84–88),
written with explicit gas `10000 - start` so that it is structurally
recursive; the `port ≤ 9999` test is kept verbatim. -/
def scanAux (used : Finset Nat) : Nat → Nat → Option Nat
  | 0, _ => none
  | gas + 1, port =>
    if port ≤ 9999 then
      if port ∈ used then scanAux used gas (port + 1) else some port
    else none

/-- `ProjectMetadata.suggest_port` given the used-port set: scan upward from
`start_port` through 9999; if that fails, re-check only port 9000
(`for port in range(9000, 9001)`, config.py 91–93); otherwise raise. -/
def suggestPortFrom (used : Finset Nat) (start : Nat) : Except String Nat :=
  match scanAux used (10000 - start) start with
  | some p => .ok p
  | none =>
    if 9000 ∉ used then .ok 9000
    else .error "All ports in range 9000-9999 are in use!"

/-- `ProjectMetadata.suggest_port` (config.py 79–95). -/
def suggest_port (fs : FS) (start : Nat) : Except String Nat :=
  suggestPortFrom (get_used_ports fs) start

/-! ## The `add` command and branch-conflict resolution of `cli.py`

Side effects are recorded as a trace.  Console output is not an effect: it
changes no file, no metadata and no external state.  External commands are
resolved by an environment; a command's failure carries its stderr text. -/

/-- Observable side effects of the `add` flow: git invocations, other tool
invocations, directory creation, the metadata write, and the two in-worktree
file creations. -/
inductive Eff : Type
  | gitRun (args : List String)
  | toolRun (prog : String) (args : List String)
  | mkdirWorktreeBase
  | saveMetadata (name : String)
  | symlinkClaudeMd
  | writeClaudeRc
deriving DecidableEq

/-- Error outcomes of the `add` flow (each is a `typer.Exit(1)` or an
uncaught exception in the source). -/
inductive CliError : Type
  | conflictingFlags
  | notInitialized
  | portExhausted
  | portInUse
  | nameAlsoExists (n : String)
  | commandFailed (stderr : String)
  | uncaughtError (msg : String)
  | validationError
  | interactiveNotModelled
deriving DecidableEq

/-- Environment of external collaborators consulted by `add`:
whether the base repository exists, whether the worktree directory for a name
exists, whether a git branch exists, the result of running a git command
(`.error` carries stderr), the result of running another tool, the metadata
file system, and whether a `CLAUDE.local.md` template is configured. -/
structure CliEnv : Type where
  supersetBaseExists : Bool
  worktreeDirExists : String → Bool
  branchExists : String → Bool
  git : List String → Except String Unit
  tool : String → List String → Except String Unit
  fs : FS
  claudeLocalMdSet : Bool

/-- Python truthiness of the `--name` option: `if name:` is false both for
`None` and for the empty string. -/
def nameTruthy : Option String → Bool
  | none => false
  | some n => n ≠ ""

/-- The `--force-new` sequence of `_handle_branch_conflict`
(cli.py 1223–1252): if the expected worktree directory exists, remove it with
`git worktree remove <project> --force` (any failure is fatal and carries the
tool's stderr); then `git branch -D <project>` (same failure handling); then
resolve to `(project, create_new := true)`. -/
def forceNewSeq (env : CliEnv) (project : String) :
    List Eff × Except CliError (String × Bool) :=
  let rmArgs := ["worktree", "remove", project, "--force"]
  let delArgs := ["branch", "-D", project]
  if env.worktreeDirExists project then
    match env.git rmArgs with
    | .error e => ([.gitRun rmArgs], .error (.commandFailed e))
    | .ok _ =>
      match env.git delArgs with
      | .error e => ([.gitRun rmArgs, .gitRun delArgs], .error (.commandFailed e))
      | .ok _ => ([.gitRun rmArgs, .gitRun delArgs], .ok (project, true))
  else
    match env.git delArgs with
    | .error e => ([.gitRun delArgs], .error (.commandFailed e))
    | .ok _ => ([.gitRun delArgs], .ok (project, true))

/-- `_handle_branch_conflict` (cli.py 1202–1344), called when the branch
`project` already exists.  A truthy `--name` is used instead if it does not
itself conflict; `--reuse` binds to the existing branch; `--force-new` runs
`forceNewSeq`.  The remaining interactive prompt loop is outside the claims
and is represented by a dedicated outcome rather than modelled. -/
def handle_branch_conflict (env : CliEnv) (project : String)
    (reuse forceNew : Bool) (nameOpt : Option String) :
    List Eff × Except CliError (String × Bool) :=
  if nameTruthy nameOpt then
    let n := nameOpt.getD ""
    if env.branchExists n then ([], .error (.nameAlsoExists n))
    else ([], .ok (n, true))
  else if reuse then ([], .ok (project, false))
  else if forceNew then forceNewSeq env project
  else ([], .error .interactiveNotModelled)

/-- The worktree path for a project (`settings.worktree_base / project`). -/
def worktreePath (project : String) : String :=
  "<worktree_base>/" ++ project

/-- The venv python of a project. -/
def venvPython (project : String) : String :=
  worktreePath project ++ "/.venv/bin/python"

/-- The provisioning tail of `add` (cli.py 266–403): create the worktree
(the only step whose failure is caught), save metadata, create the venv,
install dependencies, link `CLAUDE.local.md` when configured, write
`.claude_rc`, install frontend dependencies, set up pre-commit.  Failures of
the uncaught steps abort with the uncaught exception. -/
def provision (env : CliEnv) (pre : List Eff) (project : String)
    (createNew : Bool) : List Eff × Except CliError Unit :=
  let wtArgs :=
    if createNew then ["worktree", "add", worktreePath project, "-b", project]
    else ["worktree", "add", worktreePath project, project]
  match env.git wtArgs with
  | .error e => (pre ++ [.gitRun wtArgs], .error (.commandFailed e))
  | .ok _ =>
    let t1 := pre ++ [.gitRun wtArgs, .saveMetadata project]
    match env.tool "uv" ["venv", "-p", "python3.11"] with
    | .error e => (t1 ++ [.toolRun "uv" ["venv", "-p", "python3.11"]],
                   .error (.uncaughtError e))
    | .ok _ =>
      let t2 := t1 ++ [.toolRun "uv" ["venv", "-p", "python3.11"]]
      let pipR := ["pip", "install", "-r", "requirements/development.txt",
                   "--python", venvPython project]
      match env.tool "uv" pipR with
      | .error e => (t2 ++ [.toolRun "uv" pipR], .error (.uncaughtError e))
      | .ok _ =>
        let t3 := t2 ++ [.toolRun "uv" pipR]
        let pipE := ["pip", "install", "-e", ".", "--python", venvPython project]
        match env.tool "uv" pipE with
        | .error e => (t3 ++ [.toolRun "uv" pipE], .error (.uncaughtError e))
        | .ok _ =>
          let t4 := t3 ++ [.toolRun "uv" pipE] ++
            (if env.claudeLocalMdSet then [Eff.symlinkClaudeMd] else []) ++
            [Eff.writeClaudeRc]
          match env.tool "npm" ["install"] with
          | .error e => (t4 ++ [.toolRun "npm" ["install"]],
                         .error (.uncaughtError e))
          | .ok _ =>
            let t5 := t4 ++ [.toolRun "npm" ["install"]]
            let pc := ["-m", "pre_commit", "install"]
            match env.tool (venvPython project) pc with
            | .error e => (t5 ++ [.toolRun (venvPython project) pc],
                           .error (.uncaughtError e))
            | .ok _ => (t5 ++ [.toolRun (venvPython project) pc], .ok ())

/-- The `add` command (cli.py 179–417).  In source order: reject the
conflicting `--reuse`/`--force-new` flags, require an initialized base
repository, resolve the port (auto-assign or collision check — in the
collision branch the message's `suggest_port` call is itself unguarded, so
its exhaustion surfaces as an uncaught error), construct the pydantic
metadata (port range validation), create the worktree base directory,
resolve a branch conflict when the branch exists, then provision. -/
def add (env : CliEnv) (project : String) (portArg : Option Nat)
    (reuse forceNew : Bool) (nameOpt : Option String) :
    List Eff × Except CliError Unit :=
  if reuse && forceNew then ([], .error .conflictingFlags)
  else if !env.supersetBaseExists then ([], .error .notInitialized)
  else
    let portRes : Except CliError Nat :=
      match portArg with
      | none =>
        match suggest_port env.fs 9001 with
        | .ok p => .ok p
        | .error _ => .error .portExhausted
      | some p =>
        if p ∈ get_used_ports env.fs then
          match suggest_port env.fs 9001 with
          | .ok _ => .error .portInUse
          | .error m => .error (.uncaughtError m)
        else .ok p
    match portRes with
    | .error e => ([], .error e)
    | .ok port =>
      if 9000 ≤ port ∧ port ≤ 9999 then
        if env.branchExists project then
          match handle_branch_conflict env project reuse forceNew nameOpt with
          | (tc, .error e) => ([Eff.mkdirWorktreeBase] ++ tc, .error e)
          | (tc, .ok (finalName, createNew)) =>
            provision env ([Eff.mkdirWorktreeBase] ++ tc) finalName createNew
        else provision env [Eff.mkdirWorktreeBase] project true
      else ([], .error .validationError)

/-! ## The current-layout metadata store

The v0.2 store (directory layout, optional description, legacy fallback) and
the version/migration gate are exercised by `tests/test_metadata.py` and
`tests/test_migrations.py`, but their implementation is not in the source
tree; the definitions below are modelled from the spec (§4.1, §4.4, §6). -/

/-- Modelled from the spec: a v0.2 `ProjectMetadata` record — `name`, `port`
(validated into [9000, 9999] at construction), `path`, and an optional
`description` (spec §3).  The missing code is the v0.2 `config.py`. -/
structure ProjectRecord : Type where
  name : String
  port : Nat
  path : String
  description : Option String
deriving DecidableEq

/-- On-disk layout of a record (spec §9: variant over
`{LegacyFlatRecord, DirectoryRecord}`). -/
inductive Layout : Type
  | flat
  | dir
deriving DecidableEq

/-- One record under the metadata root: its layout, its project name, and its
file. -/
structure Entry : Type where
  layout : Layout
  name : String
  file : FileData
deriving DecidableEq

/-- Modelled from the spec: parse one record file per §4.1 — tolerate blank
and `#`-comment lines, match the fixed schema case-sensitively, unquote one
layer of matching quotes, require `PROJECT_NAME`, `NODE_PORT`, `PROJECT_PATH`
(`PROJECT_DESCRIPTION` optional), validate the port into [9000, 9999].
The missing code is the v0.2 `ProjectMetadata.load` body. -/
def parseKV (kv : List (List Char × List Char)) : Except LoadErr ProjectRecord :=
  match kvGet kv "PROJECT_NAME".data, kvGet kv "NODE_PORT".data,
        kvGet kv "PROJECT_PATH".data with
  | some nm, some pt, some pth =>
    match parseDigits pt with
    | some v =>
      if 9000 ≤ v ∧ v ≤ 9999 then
        .ok ⟨String.mk nm, v, String.mk pth,
             (kvGet kv "PROJECT_DESCRIPTION".data).map String.mk⟩
      else .error .invalidPort
    | none => .error .invalidPort
  | _, _, _ => .error .missingKey

def parseRecordContent (c : String) : Except LoadErr ProjectRecord :=
  parseKV (parseLines unquoteOnce c.data)

/-- Parse a record file in either layout: unreadable files raise. -/
def parseRecord (f : FileData) : Except LoadErr ProjectRecord :=
  match f with
  | .unreadable => .error .readError
  | .content c => parseRecordContent c

/-- First entry with the given layout and name. -/
def findEntry (es : List Entry) (ly : Layout) (nm : String) : Option FileData :=
  (es.find? (fun e => e.layout = ly ∧ e.name = nm)).map (fun e => e.file)

/-- Modelled from the spec: v0.2 `load(name)` — check the current-layout
path first, then the legacy flat path, and fail with NotFound only when
neither exists (spec §4.1).  The missing code is the v0.2 `load`. -/
def loadV2 (name : String) (es : List Entry) : Except LoadErr ProjectRecord :=
  match findEntry es .dir name with
  | some f => parseRecord f
  | none =>
    match findEntry es .flat name with
    | some f => parseRecord f
    | none => .error .notFound

/-- One `KEY="value"` line with its newline terminator. -/
def kvLine (key v : String) : String :=
  key ++ "=\"" ++ v ++ "\"\n"

/-- Modelled from the spec: the serialized form of a v0.2 record — ordered
`KEY="value"` lines, `PROJECT_DESCRIPTION` only when present (spec §6).
The missing code is the v0.2 `save` body. -/
def saveContentV2 (m : ProjectRecord) : String :=
  kvLine "PROJECT_NAME" m.name ++ kvLine "NODE_PORT" (portRepr m.port) ++
  kvLine "PROJECT_PATH" m.path ++
  (match m.description with
   | some d => kvLine "PROJECT_DESCRIPTION" d
   | none => "")

/-- Modelled from the spec: v0.2 `save(metadata)` — write (overwrite) the
record at the current-layout path derived from `m.name` (spec §4.1). -/
def saveV2 (m : ProjectRecord) (es : List Entry) : List Entry :=
  ⟨.dir, m.name, .content (saveContentV2 m)⟩ :: es

/-- The port contributed by one enumerated record file, if it parses. -/
def portOfEntry (e : Entry) : Option Nat :=
  match parseRecord e.file with
  | .ok r => some r.port
  | .error _ => none

/-- Modelled from the spec: `getUsedPorts()` — enumerate all records under
the root in both layouts and collect the ports of the valid ones, skipping
unreadable or corrupt records silently (spec §4.1).  Total by construction:
no exception escapes.  The missing code is the v0.2 `get_used_ports`. -/
def getUsedPortsV2 (es : List Entry) : Finset Nat :=
  es.foldl
    (fun s e =>
      match portOfEntry e with
      | some p => insert p s
      | none => s) ∅

/-! ## The version/migration gate -/

/-- The result of reading the version marker file
`<claudette-root>/.claudette.json`: absent, unreadable, invalid encoding,
valid encoding without a `version` field, or a version string. -/
inductive MarkerRead : Type
  | absent
  | unreadable
  | invalidEncoding
  | missingVersionField
  | version (v : String)
deriving DecidableEq

/-- The running software's version (the concrete string is irrelevant to the
claims; only equality with the marker matters). -/
def CLAUDETTE_VERSION : String := "0.2.0"

/-- Effects of the gate: run the v1→v2 layout migration; write the version
marker stamped with a version. -/
inductive GateEff : Type
  | migrate
  | writeVersionFile (v : String)
deriving DecidableEq

/-- The installed version the gate infers from the marker: unknown/oldest
for every marker state other than a present `version` field (spec §4.4). -/
def installedVersion : MarkerRead → Option String
  | .version v => some v
  | _ => none

/-- Modelled from the spec: `_ensure_claudette_initialized` — no-op when the
installation root does not exist; otherwise read the marker, no-op when it
names the current version, and otherwise run the layout migration and then
rewrite the marker with the current version, without raising (spec §4.4).
Total by construction: there is no error outcome.  The missing code is
`_ensure_claudette_initialized` in the v0.2 `cli.py` (its tests are
`tests/test_migrations.py`). -/
def ensure_claudette_initialized (rootExists : Bool) (marker : MarkerRead) :
    List GateEff :=
  if !rootExists then []
  else
    match installedVersion marker with
    | some v =>
      if v = CLAUDETTE_VERSION then []
      else [.migrate, .writeVersionFile CLAUDETTE_VERSION]
    | none => [.migrate, .writeVersionFile CLAUDETTE_VERSION]

/-! ## Lemmas about the character-level utilities -/

theorem splitOnChar_of_not_mem {c : Char} {l : List Char} (h : c ∉ l) :
    splitOnChar c l = [l] := by
  induction l with
  | nil => rfl
  | cons x xs ih =>
    have hx : ¬x = c := fun hc => h (hc ▸ List.mem_cons_self x xs)
    have hxs : c ∉ xs := fun hm => h (List.mem_cons_of_mem x hm)
    simp [splitOnChar, hx, ih hxs]

theorem splitOnChar_append {c : Char} {l₁ l₂ : List Char} (h : c ∉ l₁) :
    splitOnChar c (l₁ ++ c :: l₂) = l₁ :: splitOnChar c l₂ := by
  induction l₁ with
  | nil => simp [splitOnChar]
  | cons x xs ih =>
    have hx : ¬x = c := fun hc => h (hc ▸ List.mem_cons_self x xs)
    have hxs : c ∉ xs := fun hm => h (List.mem_cons_of_mem x hm)
    have h2 := ih hxs
    simp only [List.cons_append, splitOnChar, hx, if_false]
    rw [show xs.append (c :: l₂) = xs ++ c :: l₂ from rfl, h2]

theorem splitFirst_append {c : Char} {l₁ l₂ : List Char} (h : c ∉ l₁) :
    splitFirst c (l₁ ++ c :: l₂) = some (l₁, l₂) := by
  induction l₁ with
  | nil => simp [splitFirst]
  | cons x xs ih =>
    have hx : ¬x = c := fun hc => h (hc ▸ List.mem_cons_self x xs)
    have hxs : c ∉ xs := fun hm => h (List.mem_cons_of_mem x hm)
    simp [splitFirst, hx, ih hxs]

theorem dropWhile_eq_self_of_head {p : Char → Bool} {x : Char} {l : List Char}
    (h : p x = false) : (x :: l).dropWhile p = x :: l := by
  simp [List.dropWhile, h]

theorem stripWs_sandwich {a b : Char} (mid : List Char)
    (ha : wsChar a = false) (hb : wsChar b = false) :
    stripWs (a :: (mid ++ [b])) = a :: (mid ++ [b]) := by
  unfold stripWs dropEndWhile
  rw [dropWhile_eq_self_of_head ha]
  have : (a :: (mid ++ [b])).reverse = b :: (mid.reverse ++ [a]) := by
    simp
  rw [this, dropWhile_eq_self_of_head hb, ← this, List.reverse_reverse]

theorem dropWhile_eq_self_of_all {p : Char → Bool} {l : List Char}
    (h : ∀ x ∈ l, p x = false) : l.dropWhile p = l := by
  cases l with
  | nil => rfl
  | cons x xs => exact dropWhile_eq_self_of_head (h x (List.mem_cons_self x xs))

theorem stripWs_of_all_not_ws {l : List Char} (h : ∀ x ∈ l, wsChar x = false) :
    stripWs l = l := by
  unfold stripWs dropEndWhile
  rw [dropWhile_eq_self_of_all h,
    dropWhile_eq_self_of_all (fun x hx => h x (List.mem_reverse.mp hx)),
    List.reverse_reverse]

theorem unquoteOnce_quoted {q : Char} (v : List Char)
    (hq : q = dq ∨ q = sq) (hws : wsChar q = false) :
    unquoteOnce (q :: (v ++ [q])) = v := by
  unfold unquoteOnce
  rw [stripWs_sandwich v hws hws]
  have hlast : (q :: (v ++ [q])).getLast? = some q := by
    rw [show q :: (v ++ [q]) = (q :: v) ++ [q] by simp]
    exact List.getLast?_concat _
  simp only [List.head?_cons, hlast]
  have hcond : 2 ≤ (q :: (v ++ [q])).length ∧ True ∧ (q = dq ∨ q = sq) :=
    ⟨by simp, trivial, hq⟩
  rw [if_pos hcond]
  simp [List.dropLast_concat]

/-- The character-list form of one serialized line, without its newline. -/
def lineChars (key v : String) : List Char :=
  key.data ++ '=' :: dq :: (v.data ++ [dq])

theorem kvLine_data (k v : String) :
    (kvLine k v).data = lineChars k v ++ [nl] := by
  have h1 : ("=\"" : String).data = ['=', dq] := by decide
  have h2 : ("\"\n" : String).data = [dq, nl] := by decide
  simp [kvLine, lineChars, h1, h2]
  exact ⟨by decide, by decide⟩

theorem nl_not_mem_lineChars {k v : String} (hk : nl ∉ k.data)
    (hv : nl ∉ v.data) : nl ∉ lineChars k v := by
  simp only [lineChars, List.mem_append, List.mem_cons, List.mem_singleton]
  rintro (h | h | h | h | h)
  · exact hk h
  · exact absurd h (by decide)
  · exact absurd h (by decide)
  · exact hv h
  · exact absurd h (by decide)

theorem parseLine_keyval (key v : List Char) (hne : key ≠ [])
    (heq : '=' ∉ key) (hws : ∀ x ∈ key, wsChar x = false)
    (hh : key.head? ≠ some '#') :
    parseLine unquoteOnce (key ++ '=' :: dq :: (v ++ [dq])) = some (key, v) := by
  obtain ⟨k0, krest, rfl⟩ := List.exists_cons_of_ne_nil hne
  have hline : (k0 :: krest) ++ '=' :: dq :: (v ++ [dq]) =
      k0 :: ((krest ++ '=' :: dq :: v) ++ [dq]) := by simp
  have hstrip : stripWs ((k0 :: krest) ++ '=' :: dq :: (v ++ [dq])) =
      (k0 :: krest) ++ '=' :: dq :: (v ++ [dq]) := by
    rw [hline]
    exact stripWs_sandwich _ (hws k0 (List.mem_cons_self _ _)) (by decide)
  have hmem : '=' ∈ (k0 :: krest) ++ '=' :: dq :: (v ++ [dq]) := by
    simp
  have hk0 : k0 ≠ '#' := by
    intro h
    exact hh (by simp [h])
  unfold parseLine
  rw [if_pos]
  · rw [splitFirst_append heq]
    show some (stripWs (k0 :: krest), unquoteOnce (dq :: (v ++ [dq]))) =
      some (k0 :: krest, v)
    rw [stripWs_of_all_not_ws hws, unquoteOnce_quoted v (Or.inl rfl) (by decide)]
  · refine ⟨hmem, ?_⟩
    rw [hstrip]
    simp [hk0]

theorem parseLine_nil (u : List Char → List Char) : parseLine u [] = none := by
  simp [parseLine]

theorem digitChar_isDigit {d : Nat} (h : d < 10) :
    (digitChar d).isDigit = true := by
  interval_cases d <;> decide

theorem digitVal_digitChar {d : Nat} (h : d < 10) :
    digitVal (digitChar d) = d := by
  interval_cases d <;> decide

theorem digitChar_ne_nl (d : Nat) : digitChar d ≠ nl := by
  unfold digitChar
  split <;> decide

theorem nl_not_mem_portRepr (p : Nat) : nl ∉ (portRepr p).data := by
  intro h
  have h' : nl ∈ [digitChar (p / 1000), digitChar (p / 100 % 10),
      digitChar (p / 10 % 10), digitChar (p % 10)] := h
  simp only [List.mem_cons, List.not_mem_nil, or_false] at h'
  rcases h' with h' | h' | h' | h' <;> exact digitChar_ne_nl _ h'.symm

theorem parseDigits_portRepr {p : Nat} (h : p ≤ 9999) :
    parseDigits (portRepr p).data = some p := by
  have h3 : p / 1000 < 10 := by omega
  have h2 : p / 100 % 10 < 10 := Nat.mod_lt _ (by norm_num)
  have h1 : p / 10 % 10 < 10 := Nat.mod_lt _ (by norm_num)
  have h0 : p % 10 < 10 := Nat.mod_lt _ (by norm_num)
  unfold parseDigits portRepr
  rw [if_pos]
  · simp only [List.foldl]
    rw [digitVal_digitChar h3, digitVal_digitChar h2, digitVal_digitChar h1,
      digitVal_digitChar h0]
    congr 1
    omega
  · refine ⟨by simp, ?_⟩
    simp [List.all, digitChar_isDigit h3, digitChar_isDigit h2,
      digitChar_isDigit h1, digitChar_isDigit h0]

theorem parseLine_lineChars (k v : String) (hne : k.data ≠ [])
    (heq : '=' ∉ k.data) (hws : ∀ x ∈ k.data, wsChar x = false)
    (hh : k.data.head? ≠ some '#') :
    parseLine unquoteOnce (lineChars k v) = some (k.data, v.data) :=
  parseLine_keyval k.data v.data hne heq hws hh

/-- The save/load round trip for the current-layout serialization: parsing
the saved file recovers the record exactly, provided no serialized field
contains a newline. -/
theorem parseRecord_saveContentV2 (m : ProjectRecord)
    (hp1 : 9000 ≤ m.port) (hp2 : m.port ≤ 9999)
    (hn : nl ∉ m.name.data) (hpa : nl ∉ m.path.data)
    (hd : ∀ d, m.description = some d → nl ∉ d.data) :
    parseRecord (FileData.content (saveContentV2 m)) = .ok m := by
  obtain ⟨nm, pt, pa, ds⟩ := m
  simp only at hp1 hp2 hn hpa hd
  have hL1 : nl ∉ lineChars "PROJECT_NAME" nm :=
    nl_not_mem_lineChars (by decide) hn
  have hL2 : nl ∉ lineChars "NODE_PORT" (portRepr pt) :=
    nl_not_mem_lineChars (by decide) (nl_not_mem_portRepr pt)
  have hL3 : nl ∉ lineChars "PROJECT_PATH" pa :=
    nl_not_mem_lineChars (by decide) hpa
  have p1 : parseLine unquoteOnce (lineChars "PROJECT_NAME" nm) =
      some ("PROJECT_NAME".data, nm.data) :=
    parseLine_lineChars _ _ (by decide) (by decide) (by decide) (by decide)
  have p2 : parseLine unquoteOnce (lineChars "NODE_PORT" (portRepr pt)) =
      some ("NODE_PORT".data, (portRepr pt).data) :=
    parseLine_lineChars _ _ (by decide) (by decide) (by decide) (by decide)
  have p3 : parseLine unquoteOnce (lineChars "PROJECT_PATH" pa) =
      some ("PROJECT_PATH".data, pa.data) :=
    parseLine_lineChars _ _ (by decide) (by decide) (by decide) (by decide)
  cases ds with
  | none =>
    have hdata : (saveContentV2 ⟨nm, pt, pa, none⟩).data =
        lineChars "PROJECT_NAME" nm ++ nl ::
        (lineChars "NODE_PORT" (portRepr pt) ++ nl ::
        (lineChars "PROJECT_PATH" pa ++ nl :: [])) := by
      simp [saveContentV2, kvLine_data]
    have hkv : parseLines unquoteOnce (saveContentV2 ⟨nm, pt, pa, none⟩).data =
        [("PROJECT_NAME".data, nm.data), ("NODE_PORT".data, (portRepr pt).data),
         ("PROJECT_PATH".data, pa.data)] := by
      unfold parseLines
      rw [hdata, splitOnChar_append hL1, splitOnChar_append hL2,
        splitOnChar_append hL3]
      simp [List.filterMap_cons, p1, p2, p3, parseLine_nil, splitOnChar]
    have e1 : kvGet [("PROJECT_NAME".data, nm.data),
        ("NODE_PORT".data, (portRepr pt).data),
        ("PROJECT_PATH".data, pa.data)] "PROJECT_NAME".data = some nm.data := by
      simp +decide [kvGet, List.find?]
    have e2 : kvGet [("PROJECT_NAME".data, nm.data),
        ("NODE_PORT".data, (portRepr pt).data),
        ("PROJECT_PATH".data, pa.data)] "NODE_PORT".data =
        some (portRepr pt).data := by
      simp +decide [kvGet, List.find?]
    have e3 : kvGet [("PROJECT_NAME".data, nm.data),
        ("NODE_PORT".data, (portRepr pt).data),
        ("PROJECT_PATH".data, pa.data)] "PROJECT_PATH".data = some pa.data := by
      simp +decide [kvGet, List.find?]
    have e4 : kvGet [("PROJECT_NAME".data, nm.data),
        ("NODE_PORT".data, (portRepr pt).data),
        ("PROJECT_PATH".data, pa.data)] "PROJECT_DESCRIPTION".data = none := by
      simp +decide [kvGet, List.find?]
    simp only [parseRecord, parseRecordContent]
    rw [hkv]
    simp only [parseKV]
    rw [e1, e2, e3, e4]
    simp [parseDigits_portRepr hp2, hp1, hp2]
  | some d =>
    have hdd : nl ∉ d.data := hd d rfl
    have hL4 : nl ∉ lineChars "PROJECT_DESCRIPTION" d :=
      nl_not_mem_lineChars (by decide) hdd
    have p4 : parseLine unquoteOnce (lineChars "PROJECT_DESCRIPTION" d) =
        some ("PROJECT_DESCRIPTION".data, d.data) :=
      parseLine_lineChars _ _ (by decide) (by decide) (by decide) (by decide)
    have hdata : (saveContentV2 ⟨nm, pt, pa, some d⟩).data =
        lineChars "PROJECT_NAME" nm ++ nl ::
        (lineChars "NODE_PORT" (portRepr pt) ++ nl ::
        (lineChars "PROJECT_PATH" pa ++ nl ::
        (lineChars "PROJECT_DESCRIPTION" d ++ nl :: []))) := by
      simp [saveContentV2, kvLine_data]
    have hkv : parseLines unquoteOnce (saveContentV2 ⟨nm, pt, pa, some d⟩).data =
        [("PROJECT_NAME".data, nm.data), ("NODE_PORT".data, (portRepr pt).data),
         ("PROJECT_PATH".data, pa.data), ("PROJECT_DESCRIPTION".data, d.data)] := by
      unfold parseLines
      rw [hdata, splitOnChar_append hL1, splitOnChar_append hL2,
        splitOnChar_append hL3, splitOnChar_append hL4]
      simp [List.filterMap_cons, p1, p2, p3, p4, parseLine_nil, splitOnChar]
    have e1 : kvGet [("PROJECT_NAME".data, nm.data),
        ("NODE_PORT".data, (portRepr pt).data),
        ("PROJECT_PATH".data, pa.data), ("PROJECT_DESCRIPTION".data, d.data)]
        "PROJECT_NAME".data = some nm.data := by
      simp +decide [kvGet, List.find?]
    have e2 : kvGet [("PROJECT_NAME".data, nm.data),
        ("NODE_PORT".data, (portRepr pt).data),
        ("PROJECT_PATH".data, pa.data), ("PROJECT_DESCRIPTION".data, d.data)]
        "NODE_PORT".data = some (portRepr pt).data := by
      simp +decide [kvGet, List.find?]
    have e3 : kvGet [("PROJECT_NAME".data, nm.data),
        ("NODE_PORT".data, (portRepr pt).data),
        ("PROJECT_PATH".data, pa.data), ("PROJECT_DESCRIPTION".data, d.data)]
        "PROJECT_PATH".data = some pa.data := by
      simp +decide [kvGet, List.find?]
    have e4 : kvGet [("PROJECT_NAME".data, nm.data),
        ("NODE_PORT".data, (portRepr pt).data),
        ("PROJECT_PATH".data, pa.data), ("PROJECT_DESCRIPTION".data, d.data)]
        "PROJECT_DESCRIPTION".data = some d.data := by
      simp +decide [kvGet, List.find?]
    simp only [parseRecord, parseRecordContent]
    rw [hkv]
    simp only [parseKV]
    rw [e1, e2, e3, e4]
    simp [parseDigits_portRepr hp2, hp1, hp2]

/-! ## Lemmas about the port scan -/

theorem scanAux_finds (U : Finset Nat) (gas port p : Nat)
    (hp1 : port ≤ p) (hp2 : p ≤ 9999) (hfree : p ∉ U)
    (hmin : ∀ q, port ≤ q → q < p → q ∈ U) (hgas : p + 1 ≤ gas + port) :
    scanAux U gas port = some p := by
  induction gas generalizing port with
  | zero => omega
  | succ g ih =>
    have hle : port ≤ 9999 := le_trans hp1 hp2
    rcases eq_or_lt_of_le hp1 with heq | hlt
    · subst heq
      simp [scanAux, hle, hfree]
    · have hmem : port ∈ U := hmin port le_rfl hlt
      simp only [scanAux, if_pos hle, if_pos hmem]
      exact ih (port + 1) hlt (fun q hq hq' => hmin q (by omega) hq') (by omega)

theorem scanAux_none (U : Finset Nat) (gas port : Nat)
    (hall : ∀ q, port ≤ q → q ≤ 9999 → q ∈ U) :
    scanAux U gas port = none := by
  induction gas generalizing port with
  | zero => rfl
  | succ g ih =>
    by_cases hle : port ≤ 9999
    · have hmem : port ∈ U := hall port le_rfl hle
      simp only [scanAux, if_pos hle, if_pos hmem]
      exact ih (port + 1) (fun q hq hq' => hall q (by omega) hq')
    · simp [scanAux, hle]

theorem suggestPortFrom_finds (U : Finset Nat) (s p : Nat)
    (hp1 : s ≤ p) (hp2 : p ≤ 9999) (hfree : p ∉ U)
    (hmin : ∀ q, s ≤ q → q < p → q ∈ U) :
    suggestPortFrom U s = .ok p := by
  unfold suggestPortFrom
  rw [scanAux_finds U (10000 - s) s p hp1 hp2 hfree hmin (by omega)]

theorem suggestPortFrom_exhausted (U : Finset Nat) (s : Nat)
    (hall : ∀ q, s ≤ q → q ≤ 9999 → q ∈ U) :
    suggestPortFrom U s =
      if 9000 ∉ U then .ok 9000
      else .error "All ports in range 9000-9999 are in use!" := by
  unfold suggestPortFrom
  rw [scanAux_none U (10000 - s) s hall]

/-! ## Lemmas about port collection -/

theorem mem_foldl_optInsert {α : Type} (g : α → Option Nat) (l : List α)
    (s₀ : Finset Nat) (p : Nat) :
    (p ∈ l.foldl
      (fun s a =>
        match g a with
        | some n => insert n s
        | none => s) s₀) ↔ p ∈ s₀ ∨ ∃ a ∈ l, g a = some p := by
  induction l generalizing s₀ with
  | nil => simp
  | cons x xs ih =>
    simp only [List.foldl_cons, List.mem_cons]
    cases hx : g x with
    | none =>
      rw [ih]
      constructor
      · rintro (h | ⟨a, ha, hga⟩)
        · exact Or.inl h
        · exact Or.inr ⟨a, Or.inr ha, hga⟩
      · rintro (h | ⟨a, rfl | ha, hga⟩)
        · exact Or.inl h
        · rw [hx] at hga
          cases hga
        · exact Or.inr ⟨a, ha, hga⟩
    | some n =>
      rw [ih]
      simp only [Finset.mem_insert]
      constructor
      · rintro ((rfl | h) | ⟨a, ha, hga⟩)
        · exact Or.inr ⟨x, Or.inl rfl, by rw [hx]⟩
        · exact Or.inl h
        · exact Or.inr ⟨a, Or.inr ha, hga⟩
      · rintro (h | ⟨a, rfl | ha, hga⟩)
        · exact Or.inl (Or.inr h)
        · rw [hx] at hga
          cases hga
          exact Or.inl (Or.inl rfl)
        · exact Or.inr ⟨a, ha, hga⟩

theorem loadKV_ok_bounds {kv : List (List Char × List Char)}
    {m : ProjectMetadata} (h : loadKV kv = .ok m) :
    9000 ≤ m.port ∧ m.port ≤ 9999 := by
  unfold loadKV at h
  split at h
  · rename_i nm pt pth hnm hpt hpth
    split at h
    · rename_i v hv
      split at h
      · rename_i hb
        cases h
        exact hb
      · cases h
    · cases h
  · cases h

theorem loadContent_ok_bounds {c : String} {m : ProjectMetadata}
    (h : loadContent c = .ok m) : 9000 ≤ m.port ∧ m.port ≤ 9999 :=
  loadKV_ok_bounds h

theorem load_ok_bounds {name : String} {fs : FS} {m : ProjectMetadata}
    (h : load name fs = .ok m) : 9000 ≤ m.port ∧ m.port ≤ 9999 := by
  unfold load at h
  split at h
  · cases h
  · cases h
  · exact loadContent_ok_bounds h

theorem mem_get_used_ports {fs : FS} {p : Nat} (h : p ∈ get_used_ports fs) :
    ∃ f, portOfFile fs f = some p := by
  unfold get_used_ports at h
  rcases (mem_foldl_optInsert (portOfFile fs) _ _ _).mp h with h | ⟨f, _, hf⟩
  · simp at h
  · exact ⟨f, hf⟩

theorem parseKV_ne_notFound (kv : List (List Char × List Char)) :
    parseKV kv ≠ .error .notFound := by
  unfold parseKV
  split
  · split
    · split <;> simp
    · simp
  · simp

theorem parseRecordContent_ne_notFound (c : String) :
    parseRecordContent c ≠ .error .notFound :=
  parseKV_ne_notFound _

theorem parseRecord_ne_notFound (f : FileData) :
    parseRecord f ≠ .error .notFound := by
  unfold parseRecord
  split
  · simp
  · exact parseRecordContent_ne_notFound _

/-! ## Lemmas about path derivation and the file-system frame -/

theorem metadataKey_no_slash {name : String} (h : '/' ∉ name.data) :
    metadataKey name = [name ++ ".claudette"] := by
  unfold metadataKey pathSegs
  have hmem : '/' ∉ (name ++ ".claudette").data := by
    rw [String.data_append]
    intro hc
    rcases List.mem_append.mp hc with hc | hc
    · exact h hc
    · exact absurd hc (by decide)
  rw [splitOnChar_of_not_mem hmem]
  have h1 : name ++ ".claudette" ≠ "" := by
    intro he
    have hl := congrArg (fun s => s.data.length) he
    simp [String.data_append] at hl
  have h2 : name ++ ".claudette" ≠ "." := by
    intro he
    have hl := congrArg (fun s => s.data.length) he
    simp [String.data_append] at hl
  show List.filter (fun seg => seg ≠ "" ∧ seg ≠ ".")
    [name ++ ".claudette"] = [name ++ ".claudette"]
  rw [List.filter_cons_of_pos]
  · rfl
  · simp [h1, h2]

theorem string_append_right_cancel {a b s : String} (h : a ++ s = b ++ s) :
    a = b := by
  have hd : a.data ++ s.data = b.data ++ s.data := by
    have := congrArg String.data h
    simpa [String.data_append] using this
  exact congrArg String.mk (List.append_cancel_right hd)

theorem metadataKey_ne_of_ne {a b : String} (ha : '/' ∉ a.data)
    (hb : '/' ∉ b.data) (hne : a ≠ b) : metadataKey a ≠ metadataKey b := by
  rw [metadataKey_no_slash ha, metadataKey_no_slash hb]
  intro h
  have h2 : a ++ ".claudette" = b ++ ".claudette" := by
    simpa using h
  exact hne (string_append_right_cancel h2)

theorem lookupFS_cons_ne {k k' : List String} {f : FileData} {fs : FS}
    (h : k' ≠ k) : lookupFS k ((k', f) :: fs) = lookupFS k fs := by
  unfold lookupFS
  rw [List.find?_cons_of_neg]
  simp [h]

/-! ## Lemmas about the current-layout store -/

theorem findEntry_saveV2 (m : ProjectRecord) (es : List Entry) :
    findEntry (saveV2 m es) .dir m.name =
      some (.content (saveContentV2 m)) := by
  unfold findEntry saveV2
  rw [List.find?_cons_of_pos _ (by simp)]
  rfl

theorem loadV2_dir {name : String} {es : List Entry} {f : FileData}
    (h : findEntry es .dir name = some f) :
    loadV2 name es = parseRecord f := by
  unfold loadV2
  rw [h]

theorem loadV2_flat {name : String} {es : List Entry} {f : FileData}
    (h1 : findEntry es .dir name = none)
    (h2 : findEntry es .flat name = some f) :
    loadV2 name es = parseRecord f := by
  unfold loadV2
  rw [h1, h2]

theorem loadV2_notFound_iff (name : String) (es : List Entry) :
    loadV2 name es = .error .notFound ↔
      findEntry es .dir name = none ∧ findEntry es .flat name = none := by
  constructor
  · intro h
    unfold loadV2 at h
    cases hdir : findEntry es .dir name with
    | some f =>
      rw [hdir] at h
      exact absurd h (parseRecord_ne_notFound f)
    | none =>
      rw [hdir] at h
      cases hflat : findEntry es .flat name with
      | some f =>
        rw [hflat] at h
        exact absurd h (parseRecord_ne_notFound f)
      | none => exact ⟨rfl, rfl⟩
  · intro ⟨h1, h2⟩
    unfold loadV2
    rw [h1, h2]

theorem mem_getUsedPortsV2 (es : List Entry) (p : Nat) :
    p ∈ getUsedPortsV2 es ↔ ∃ e ∈ es, portOfEntry e = some p := by
  unfold getUsedPortsV2
  rw [mem_foldl_optInsert]
  simp

/-! ## Claim C1 -/

/-- C1 as stated is false: the claim quantifies over *any* path, but a path
whose string contains a newline breaks the line-oriented serialization, so
loading right after saving returns a different record.  Concretely, saving
the record with path `/tmp/a<newline>b` and loading it back yields the
mangled path `"/tmp/a` (with a literal leading quote). -/
theorem C1_newline_counterexample :
    loadV2 "p" (saveV2 ⟨"p", 9001, "/tmp/a\nb", none⟩ []) =
      Except.ok (⟨"p", 9001, "\"/tmp/a", none⟩ : ProjectRecord) ∧
    ("\"/tmp/a" : String) ≠ "/tmp/a\nb" := by
  constructor
  · decide
  · decide

/-- C1 (amended): for every valid ProjectMetadata `m` (non-empty name, port
in [9000, 9999], description present or absent) whose name, path and
description contain no newline character, loading `m.name` from the same
root immediately after `save m` returns a record equal to `m` — same name,
port, path, and description. -/
theorem C1_roundtrip_after_save (m : ProjectRecord) (es : List Entry)
    (hname : m.name ≠ "") (hp1 : 9000 ≤ m.port) (hp2 : m.port ≤ 9999)
    (hn : nl ∉ m.name.data) (hpa : nl ∉ m.path.data)
    (hd : ∀ d, m.description = some d → nl ∉ d.data) :
    loadV2 m.name (saveV2 m es) = .ok m := by
  rw [loadV2_dir (findEntry_saveV2 m es)]
  exact parseRecord_saveContentV2 m hp1 hp2 hn hpa hd

/-- C1 witness: the round trip at a concrete record with a description. -/
theorem C1_roundtrip_witness :
    loadV2 "feat" (saveV2 ⟨"feat", 9123, "/w/feat", some "demo project"⟩ []) =
      Except.ok (⟨"feat", 9123, "/w/feat", some "demo project"⟩ : ProjectRecord) :=
  C1_roundtrip_after_save ⟨"feat", 9123, "/w/feat", some "demo project"⟩ []
    (by decide) (by decide) (by decide) (by decide) (by decide)
    (fun d h => by cases h; decide)

/-! ## Claim C2 -/

/-- C2: `getUsedPorts` returns exactly the set of ports of the records (in
either layout) that parse and validate; a record that fails to parse —
unreadable or malformed — is skipped silently and changes nothing, so a
single bad record never aborts enumeration (the function is total by
construction).  The concrete instance uses one legacy flat record, one
current-layout record and one unreadable record. -/
theorem C2_used_ports_exact :
    (∀ (es : List Entry) (p : Nat),
      p ∈ getUsedPortsV2 es ↔
        ∃ e ∈ es, ∃ r, parseRecord e.file = .ok r ∧ r.port = p) ∧
    (∀ (e : Entry) (es : List Entry) (err : LoadErr),
      parseRecord e.file = .error err →
      getUsedPortsV2 (e :: es) = getUsedPortsV2 es) ∧
    getUsedPortsV2
      [⟨.flat, "old-project", .content
          "PROJECT_NAME=\"old-project\"\nNODE_PORT=\"9003\"\nPROJECT_PATH=\"/tmp/old-project\"\n"⟩,
       ⟨.dir, "new-project", .content
          "PROJECT_NAME=\"new-project\"\nNODE_PORT=\"9004\"\nPROJECT_PATH=\"/tmp/new-project\"\n"⟩,
       ⟨.dir, "broken", .unreadable⟩] = {9003, 9004} := by
  refine ⟨?_, ?_, ?_⟩
  · intro es p
    rw [mem_getUsedPortsV2]
    constructor
    · rintro ⟨e, he, hp⟩
      unfold portOfEntry at hp
      split at hp
      · rename_i r hr
        cases hp
        exact ⟨e, he, r, hr, rfl⟩
      · cases hp
    · rintro ⟨e, he, r, hr, rfl⟩
      exact ⟨e, he, by unfold portOfEntry; rw [hr]⟩
  · intro e es err h
    unfold getUsedPortsV2
    simp only [List.foldl_cons]
    have : portOfEntry e = none := by
      unfold portOfEntry
      rw [h]
    rw [this]
  · decide

/-- C2 witness: prepending an unreadable record leaves the used-port set
unchanged. -/
theorem C2_used_ports_witness :
    getUsedPortsV2
      [⟨.dir, "broken", .unreadable⟩,
       ⟨.flat, "ok", .content
          "PROJECT_NAME=\"ok\"\nNODE_PORT=\"9007\"\nPROJECT_PATH=\"/w/ok\"\n"⟩] =
    getUsedPortsV2
      [⟨.flat, "ok", .content
          "PROJECT_NAME=\"ok\"\nNODE_PORT=\"9007\"\nPROJECT_PATH=\"/w/ok\"\n"⟩] :=
  C2_used_ports_exact.2.1 _ _ .readError (by decide)

/-! ## Claim C3 -/

/-- C3: `suggest_port` is `suggestPortFrom` applied to the used-port set;
for every start port `s` in [9001, 9999], if `p` is the smallest port in
[s, 9999] outside the used set `U`, the scan returns `p`; in particular with
used ports {9001, 9002, 9005} and the default start 9001 it returns 9003. -/
theorem C3_suggest_lowest_free :
    (∀ (fs : FS) (s : Nat),
      suggest_port fs s = suggestPortFrom (get_used_ports fs) s) ∧
    (∀ (U : Finset Nat) (s p : Nat), 9001 ≤ s → s ≤ 9999 →
      s ≤ p → p ≤ 9999 → p ∉ U → (∀ q, s ≤ q → q < p → q ∈ U) →
      suggestPortFrom U s = .ok p) ∧
    suggestPortFrom {9001, 9002, 9005} 9001 = .ok 9003 :=
  ⟨fun _ _ => rfl,
   fun U s p _ _ h3 h4 h5 h6 => suggestPortFrom_finds U s p h3 h4 h5 h6,
   by decide⟩

/-- C3 witness: the general lowest-free-port property instantiated at the
spec's example. -/
theorem C3_suggest_witness :
    suggestPortFrom {9001, 9002, 9005} 9001 = .ok 9003 ∧
    (9003 : Nat) ∉ ({9001, 9002, 9005} : Finset Nat) :=
  ⟨C3_suggest_lowest_free.2.1 {9001, 9002, 9005} 9001 9003 (by decide)
      (by decide) (by decide) (by decide) (by decide)
      (fun q h1 h2 => by interval_cases q <;> decide),
   by decide⟩

/-! ## Claim C4 -/

/-- C4 as stated is false: with start port 9999 and used set {9999}, every
port in [9999, 9999] is used and 9000 is free, yet `suggest_port` returns
port 9000 through the legacy fallback instead of raising. -/
theorem C4_returns_9000_counterexample :
    (Finset.Icc 9999 9999 : Finset Nat) = {9999} ∧
    (9000 : Nat) ∉ ({9999} : Finset Nat) ∧
    suggestPortFrom {9999} 9999 = .ok 9000 := by
  refine ⟨by decide, by decide, by decide⟩

/-- C4 (amended): when every port in [s, 9999] is used, `suggest_port`
falls back to re-checking only port 9000: it raises the exhausted-range
error exactly when 9000 is also used, and returns 9000 when 9000 is free. -/
theorem C4_exhaustion_amended :
    (∀ (fs : FS) (s : Nat),
      suggest_port fs s = suggestPortFrom (get_used_ports fs) s) ∧
    (∀ (U : Finset Nat) (s : Nat), (∀ q, s ≤ q → q ≤ 9999 → q ∈ U) →
      9000 ∈ U →
      suggestPortFrom U s = .error "All ports in range 9000-9999 are in use!") ∧
    (∀ (U : Finset Nat) (s : Nat), (∀ q, s ≤ q → q ≤ 9999 → q ∈ U) →
      9000 ∉ U → suggestPortFrom U s = .ok 9000) := by
  refine ⟨fun _ _ => rfl, ?_, ?_⟩
  · intro U s hall h9
    rw [suggestPortFrom_exhausted U s hall]
    simp [h9]
  · intro U s hall h9
    rw [suggestPortFrom_exhausted U s hall]
    simp [h9]

/-- C4 witness: both exhaustion outcomes at concrete used sets. -/
theorem C4_exhaustion_witness :
    suggestPortFrom {9999, 9000} 9999 =
      .error "All ports in range 9000-9999 are in use!" ∧
    suggestPortFrom {9999} 9999 = .ok 9000 :=
  ⟨C4_exhaustion_amended.2.1 {9999, 9000} 9999
      (fun q h1 h2 => by interval_cases q <;> decide) (by decide),
   C4_exhaustion_amended.2.2 {9999} 9999
      (fun q h1 h2 => by interval_cases q <;> decide) (by decide)⟩

/-! ## Claim C5 -/

/-- C5: `load` consults the current-layout path first (the legacy path is
then ignored), falls back to the legacy flat path only when the
current-layout record is absent, and fails with NotFound exactly when
neither exists; a record present only under the current layout loads
successfully. -/
theorem C5_load_layout_order :
    (∀ (name : String) (es : List Entry) (f : FileData),
      findEntry es .dir name = some f → loadV2 name es = parseRecord f) ∧
    (∀ (name : String) (es : List Entry) (f : FileData),
      findEntry es .dir name = none → findEntry es .flat name = some f →
      loadV2 name es = parseRecord f) ∧
    (∀ (name : String) (es : List Entry),
      loadV2 name es = .error .notFound ↔
        findEntry es .dir name = none ∧ findEntry es .flat name = none) ∧
    loadV2 "feature"
      [⟨.dir, "feature", .content
        "PROJECT_NAME=\"feature\"\nNODE_PORT=\"9101\"\nPROJECT_PATH=\"/w/feature\"\n"⟩] =
      Except.ok (⟨"feature", 9101, "/w/feature", none⟩ : ProjectRecord) :=
  ⟨fun _ _ _ h => loadV2_dir h,
   fun _ _ _ h1 h2 => loadV2_flat h1 h2,
   fun name es => loadV2_notFound_iff name es,
   by decide⟩

/-- C5 witness: the dir-first rule applied at a store holding both a
current-layout record and a conflicting legacy record for the same name. -/
theorem C5_load_layout_witness :
    loadV2 "x"
      [⟨.flat, "x", .unreadable⟩,
       ⟨.dir, "x", .content
        "PROJECT_NAME=\"x\"\nNODE_PORT=\"9200\"\nPROJECT_PATH=\"/w/x\"\n"⟩] =
      parseRecord (.content
        "PROJECT_NAME=\"x\"\nNODE_PORT=\"9200\"\nPROJECT_PATH=\"/w/x\"\n") :=
  C5_load_layout_order.1 "x" _ _ (by decide)

/-! ## Claim C6 -/

/-- C6: with both `--reuse` and `--force-new` set, `add` fails with the
conflicting-flags error and an empty effect trace — no filesystem write, no
metadata change and no external collaborator call, for every environment,
project name, port argument and name option. -/
theorem C6_conflicting_flags :
    ∀ (env : CliEnv) (project : String) (portArg : Option Nat)
      (nameOpt : Option String),
      add env project portArg true true nameOpt =
        ([], .error .conflictingFlags) :=
  fun _ _ _ _ => rfl

/-! ## Claim C7 -/

/-- C7: with `--force-new` set (no explicit name), an existing branch and an
existing worktree directory, conflict resolution performs exactly two
collaborator calls — remove the worktree, then force-delete the branch, in
that order — and returns `(project, createNew := true)`; a failure of either
call aborts with that tool's diagnostic. -/
theorem C7_force_new_sequence (env : CliEnv) (project : String)
    (hbr : env.branchExists project = true)
    (hwt : env.worktreeDirExists project = true) :
    (env.git ["worktree", "remove", project, "--force"] = .ok () →
     env.git ["branch", "-D", project] = .ok () →
     handle_branch_conflict env project false true none =
       ([.gitRun ["worktree", "remove", project, "--force"],
         .gitRun ["branch", "-D", project]], .ok (project, true))) ∧
    (∀ e, env.git ["worktree", "remove", project, "--force"] = .error e →
     handle_branch_conflict env project false true none =
       ([.gitRun ["worktree", "remove", project, "--force"]],
        .error (.commandFailed e))) ∧
    (∀ e, env.git ["worktree", "remove", project, "--force"] = .ok () →
     env.git ["branch", "-D", project] = .error e →
     handle_branch_conflict env project false true none =
       ([.gitRun ["worktree", "remove", project, "--force"],
         .gitRun ["branch", "-D", project]], .error (.commandFailed e))) := by
  refine ⟨?_, ?_, ?_⟩
  · intro h1 h2
    simp [handle_branch_conflict, nameTruthy, forceNewSeq, hwt, h1, h2]
  · intro e h1
    simp [handle_branch_conflict, nameTruthy, forceNewSeq, hwt, h1]
  · intro e h1 h2
    simp [handle_branch_conflict, nameTruthy, forceNewSeq, hwt, h1, h2]

/-- C7 witness: the two-call resolution at a concrete environment in which
every external command succeeds. -/
theorem C7_force_new_witness :
    handle_branch_conflict
      ⟨true, fun _ => true, fun _ => true, fun _ => Except.ok (),
       fun _ _ => Except.ok (), [], false⟩ "feature" false true none =
      ([.gitRun ["worktree", "remove", "feature", "--force"],
        .gitRun ["branch", "-D", "feature"]], .ok ("feature", true)) :=
  (C7_force_new_sequence
      ⟨true, fun _ => true, fun _ => true, fun _ => Except.ok (),
       fun _ _ => Except.ok (), [], false⟩ "feature" rfl rfl).1 rfl rfl

/-! ## Claim C8 -/

/-- C8: on an existing installation root, a version marker that is absent,
unreadable, of invalid encoding, or missing its version field makes the gate
run the layout migration and then rewrite the marker with the current
version (the gate has no error outcome); a marker naming the current version
makes the gate do nothing. -/
theorem C8_version_gate :
    ensure_claudette_initialized true .absent =
      [.migrate, .writeVersionFile CLAUDETTE_VERSION] ∧
    ensure_claudette_initialized true .unreadable =
      [.migrate, .writeVersionFile CLAUDETTE_VERSION] ∧
    ensure_claudette_initialized true .invalidEncoding =
      [.migrate, .writeVersionFile CLAUDETTE_VERSION] ∧
    ensure_claudette_initialized true .missingVersionField =
      [.migrate, .writeVersionFile CLAUDETTE_VERSION] ∧
    ensure_claudette_initialized true (.version CLAUDETTE_VERSION) = [] := by
  refine ⟨rfl, rfl, rfl, rfl, ?_⟩
  simp [ensure_claudette_initialized, installedVersion]

/-! ## Claim C9 -/

/-- C9 as stated is false: `pathlib` collapses single-dot path segments, so
the distinct name `./a` denotes the same metadata file as `a`; saving the
record named `a` changes the outcome of loading `./a` from NotFound to the
record itself. -/
theorem C9_dot_segment_counterexample :
    ("./a" : String) ≠ "a" ∧
    load "./a" ([] : FS) = .error .notFound ∧
    load "./a" (save ⟨"a", 9001, "/tmp/a"⟩ []) =
      Except.ok (⟨"a", 9001, "/tmp/a"⟩ : ProjectMetadata) := by
  refine ⟨by decide, rfl, by decide⟩

/-- C9 (amended): `save m` writes only the single metadata file derived from
`m.name`, and for every name `n` other than `m.name` whose derived metadata
path differs — in particular whenever neither name contains a `/` path
separator — the outcome of `load n` is unchanged by the save. -/
theorem C9_save_frame_amended (m : ProjectMetadata) (n : String) (fs : FS)
    (hm : '/' ∉ m.name.data) (hn : '/' ∉ n.data) (hne : n ≠ m.name) :
    load n (save m fs) = load n fs ∧
    (∀ k, k ≠ metadataKey m.name → lookupFS k (save m fs) = lookupFS k fs) := by
  have hk : metadataKey m.name ≠ metadataKey n :=
    fun h => (metadataKey_ne_of_ne hn hm hne) h.symm
  constructor
  · unfold load save
    rw [lookupFS_cons_ne hk]
  · intro k hk2
    unfold save
    exact lookupFS_cons_ne (fun h => hk2 h.symm)

/-- C9 witness: saving project `a` leaves loading the unrelated project `b`
unchanged. -/
theorem C9_save_frame_witness :
    load "b" (save ⟨"a", 9001, "/tmp/a"⟩ []) = load "b" ([] : FS) :=
  (C9_save_frame_amended ⟨"a", 9001, "/tmp/a"⟩ "b" [] (by decide) (by decide)
    (by decide)).1

/-! ## Claim C10 -/

/-- C10: every port in `get_used_ports` lies in [9000, 9999] — a stored
record whose port parses to an out-of-range integer fails the pydantic
range validation during `load` and is silently excluded; concretely, a
hand-edited record with port 80 is not counted and does not raise. -/
theorem C10_ports_in_range :
    (∀ (fs : FS) (p : Nat), p ∈ get_used_ports fs →
      9000 ≤ p ∧ p ≤ 9999) ∧
    get_used_ports
      [(["hand-edited.claudette"], .content
          "PROJECT_NAME=\"hand-edited\"\nNODE_PORT=\"80\"\nPROJECT_PATH=\"/x\"\n"),
       (["ok.claudette"], .content (saveContent ⟨"ok", 9001, "/w/ok"⟩))] =
      {9001} := by
  constructor
  · intro fs p h
    obtain ⟨f, hf⟩ := mem_get_used_ports h
    unfold portOfFile at hf
    split at hf
    · rename_i m hm
      cases hf
      exact load_ok_bounds hm
    · cases hf
  · decide

/-- C10 witness: a concrete used port produced by the store is in range. -/
theorem C10_ports_in_range_witness :
    (9000 : Nat) ≤ 9001 ∧ (9001 : Nat) ≤ 9999 :=
  C10_ports_in_range.1
    [(["ok.claudette"], .content (saveContent ⟨"ok", 9001, "/w/ok"⟩))] 9001
    (by decide)

end Claudette
